import Mathlib

/-!
Shallow embedding of the disposable-mail bot (`src/bot.py`): the SQLite-backed
mailbox registry, active-mailbox selection, seen-message ledger, the periodic
polling/forwarding cycle `poll_all_chats`, the message formatter
`format_full_message`, and the mail.tm account-creation flow.

Tables (from `init_db`):
  * `active_mailbox(chat_id PRIMARY KEY, mailbox_id, updated_at)`
  * `mailboxes(id AUTOINCREMENT PRIMARY KEY, chat_id, address, password,
     token, created_at, label, UNIQUE(chat_id, address))`
  * `seen_messages(chat_id, message_id, seen_at, PRIMARY KEY(chat_id, message_id))`

External effects (HTTP to mail.tm, Telegram sends) are modelled as oracle
functions supplied in `Provider` / `AcctProvider` records; a call that the
Python code wraps in try/except is an `Except Unit` result or a `Bool`.
-/

namespace Bot

/-- One row of the `mailboxes` table. -/
structure MailboxRow where
  id : Nat
  chat_id : Int
  address : String
  password : String
  token : String
  created_at : Int
  label : Option String
  deriving Repr, DecidableEq

/-- The persistent database: the three tables of `init_db`, plus the
AUTOINCREMENT counter backing `mailboxes.id`.
`active` rows are `(chat_id, mailbox_id, updated_at)`;
`seen` rows are `(chat_id, message_id, seen_at)`. -/
structure DB where
  mailboxes : List MailboxRow
  nextId : Nat
  active : List (Int × Nat × Int)
  seen : List (Int × String × Int)
  deriving Repr, DecidableEq

/-- `db_get_active_mailbox`: SELECT joining `active_mailbox` with `mailboxes`
on `m.id = a.mailbox_id` (the SQL join does not re-check `chat_id` on the
mailbox side), returning `(mailbox_id, address, password, token)`. -/
def db_get_active_mailbox (db : DB) (chat_id : Int) :
    Option (Nat × String × String × String) :=
  match db.active.find? (fun a => a.1 == chat_id) with
  | none => none
  | some a =>
    match db.mailboxes.find? (fun m => m.id == a.2.1) with
    | none => none
    | some m => some (m.id, m.address, m.password, m.token)

/-- `db_set_active_mailbox`: INSERT .. ON CONFLICT(chat_id) DO UPDATE —
an upsert keyed on `chat_id`. -/
def db_set_active_mailbox (db : DB) (chat_id : Int) (mailbox_id : Nat)
    (now : Int) : DB :=
  if db.active.any (fun a => a.1 == chat_id) then
    { db with active :=
        db.active.map (fun a => if a.1 == chat_id then (chat_id, mailbox_id, now) else a) }
  else
    { db with active := db.active ++ [(chat_id, mailbox_id, now)] }

/-- `db_save_mailbox`: INSERT OR IGNORE (the UNIQUE(chat_id, address)
constraint turns a duplicate insert into a no-op), then
SELECT id WHERE chat_id=? AND address=? and return it.  The `none → 0`
branch is unreachable: after the insert-or-ignore a matching row exists
(in Python a missing row would raise on `fetchone()[0]`). -/
def db_save_mailbox (db : DB) (chat_id : Int) (address password token : String)
    (now : Int) (label : Option String) : Nat × DB :=
  let db' :=
    if db.mailboxes.any (fun r => r.chat_id == chat_id && r.address == address) then
      db
    else
      { db with
        mailboxes := db.mailboxes ++
          [⟨db.nextId, chat_id, address, password, token, now, label⟩],
        nextId := db.nextId + 1 }
  match db'.mailboxes.find? (fun r => r.chat_id == chat_id && r.address == address) with
  | some r => (r.id, db')
  | none => (0, db')

/-- `db_list_mailboxes`: SELECT id, address, label, created_at WHERE chat_id=?
ORDER BY created_at DESC. -/
def db_list_mailboxes (db : DB) (chat_id : Int) :
    List (Nat × String × Option String × Int) :=
  ((db.mailboxes.filter (fun m => m.chat_id == chat_id)).mergeSort
      (fun a b => b.created_at ≤ a.created_at)).map
    (fun m => (m.id, m.address, m.label, m.created_at))

/-- `db_delete_mailbox`: one transaction deleting the `active_mailbox` row
pointing at this mailbox (if any) and the mailbox row itself; a single
`commit` makes both deletions visible together. -/
def db_delete_mailbox (db : DB) (chat_id : Int) (mailbox_id : Nat) : DB :=
  { db with
    active := db.active.filter
      (fun a => !(a.1 == chat_id && a.2.1 == mailbox_id)),
    mailboxes := db.mailboxes.filter
      (fun m => !(m.chat_id == chat_id && m.id == mailbox_id)) }

/-- `db_mark_seen`: INSERT OR IGNORE into `seen_messages`
(PRIMARY KEY (chat_id, message_id) makes a duplicate mark a no-op). -/
def db_mark_seen (db : DB) (chat_id : Int) (message_id : String) (now : Int) : DB :=
  if db.seen.any (fun r => r.1 == chat_id && r.2.1 == message_id) then db
  else { db with seen := db.seen ++ [(chat_id, message_id, now)] }

/-- `db_is_seen`: SELECT 1 FROM seen_messages WHERE chat_id=? AND message_id=?. -/
def db_is_seen (db : DB) (chat_id : Int) (message_id : String) : Bool :=
  db.seen.any (fun r => r.1 == chat_id && r.2.1 == message_id)

/-! ### Message formatting (`format_full_message`) -/

/-- The fields of a fetched mail.tm message that `format_full_message` reads.
`from_addr` is `msg["from"]["address"]` (`none` when the sender dict or its
address is absent, where Python falls back to `"unknown"`); `to_addrs` is the
list `[x.get("address") or "" for x in msg["to"] if isinstance(x, dict)]`;
`html` is the `"html"` value, truthy iff nonempty. -/
structure FullMsg where
  from_addr : Option String
  subject : Option String
  to_addrs : List String
  createdAt : Option String
  text : Option String
  html : List String
  deriving Repr, DecidableEq

/-- Python's `s or default` for strings: the empty string is falsy. -/
def pyOr (s d : String) : String := if s = "" then d else s

/-- Python's `str.strip()` whitespace set. -/
def isPySpace (c : Char) : Bool :=
  c == ' ' || c == '\t' || c == '\n' || c == '\r' || c == '\x0b' || c == '\x0c'

/-- Python's `str.strip()`: drop leading and trailing whitespace. -/
def pyStrip (s : String) : String :=
  (((s.toList.dropWhile isPySpace).reverse.dropWhile isPySpace).reverse).asString

/-- `format_full_message`: build the Telegram text pushed for one email.
Empty subject gets `"(no subject)"`; a message with no (stripped) text body
but a truthy `html` field gets the fixed HTML-only placeholder; a body longer
than 3500 characters is cut at 3500 and `"\n…(truncated)"` appended; an empty
final body renders as `"(empty body)"`. -/
def format_full_message (msg : FullMsg) : String :=
  let frm := msg.from_addr.getD "unknown"
  let subj := pyOr (msg.subject.getD "") "(no subject)"
  let tos := pyOr (String.intercalate ", " msg.to_addrs) "(unknown)"
  let created := msg.createdAt.getD ""
  let text0 := pyStrip (msg.text.getD "")
  let text1 :=
    if text0 = "" ∧ msg.html ≠ [] then
      "(This email is HTML-only. Text version not available.)"
    else text0
  let text2 :=
    if text1.toList.length > 3500 then
      (text1.toList.take 3500).asString ++ "\n…(truncated)"
    else text1
  "📩 <b>New Email</b>\n<b>From:</b> " ++ frm ++
    "\n<b>To:</b> " ++ tos ++
    "\n<b>Subject:</b> " ++ subj ++
    "\n<b>Date:</b> " ++ created ++
    "\n\n" ++ pyOr text2 "(empty body)"

/-! ### Provider oracles and the polling cycle (`poll_all_chats`) -/

/-- One entry of the mail.tm message-list response; `poll_all_chats` only
reads its `"id"` field (`m.get("id")`, possibly absent). -/
structure Summary where
  id : Option String
  deriving Repr, DecidableEq

/-- The external effects one polling cycle can perform, as oracles:
`listMessages token` models `mailtm_list_messages` (`.error` = the exception
swallowed by the per-tenant `try`), `readMessage token id` models
`mailtm_read_message`, and `sendOk chat text` tells whether
`bot.send_message` succeeds (`false` = it raises). -/
structure Provider where
  listMessages : String → Except Unit (List Summary)
  readMessage : String → String → Except Unit FullMsg
  sendOk : Int → String → Bool

/-- The observable outcome of (part of) a polling cycle: the database
afterwards, the trace of confirmed pushes `(chat_id, message_id, text)` in
the order they were sent, and the trace of attempted `readMessage` calls
`(chat_id, message_id)`. -/
structure PollResult where
  db : DB
  pushed : List (Int × String × String)
  reads : List (Int × String)
  deriving Repr, DecidableEq

/-- The inner per-message loop of `poll_all_chats` (`for mid in
reversed(new_ids)`): read the full message, format it, push it, and mark it
seen only after the push succeeded; any failure skips just this message. -/
def deliverLoop (p : Provider) (now : Int) (chat_id : Int) (token : String) :
    List String → DB → PollResult
  | [], db => ⟨db, [], []⟩
  | mid :: rest, db =>
    match p.readMessage token mid with
    | .error _ =>
      let r := deliverLoop p now chat_id token rest db
      ⟨r.db, r.pushed, (chat_id, mid) :: r.reads⟩
    | .ok full =>
      let text := format_full_message full
      if p.sendOk chat_id text then
        let r := deliverLoop p now chat_id token rest (db_mark_seen db chat_id mid now)
        ⟨r.db, (chat_id, mid, text) :: r.pushed, (chat_id, mid) :: r.reads⟩
      else
        let r := deliverLoop p now chat_id token rest db
        ⟨r.db, r.pushed, (chat_id, mid) :: r.reads⟩

/-- The body of the `new_ids` filter: keep `m.get("id")` when it is truthy
(a nonempty string) and not yet seen for this chat. -/
def newIdFilter (db : DB) (chat_id : Int) (s : Summary) : Option String :=
  match s.id with
  | some mid => if mid ≠ "" && !db_is_seen db chat_id mid then some mid else none
  | none => none

/-- The loop building `new_ids` out of the listed summaries. -/
def newIds (db : DB) (chat_id : Int) (msgs : List Summary) : List String :=
  msgs.filterMap (newIdFilter db chat_id)

/-- The per-tenant body of `poll_all_chats`: look up the token
(`SELECT token FROM mailboxes WHERE id=? AND chat_id=?`; a missing row skips
the tenant), list messages (a failure skips the tenant), filter unseen ids,
and deliver them in reversed (oldest-first) order. -/
def pollChat (p : Provider) (now : Int) (db : DB) (chat_id : Int)
    (mailbox_id : Nat) : PollResult :=
  match db.mailboxes.find? (fun m => m.id == mailbox_id && m.chat_id == chat_id) with
  | none => ⟨db, [], []⟩
  | some m =>
    match p.listMessages m.token with
    | .error _ => ⟨db, [], []⟩
    | .ok msgs => deliverLoop p now chat_id m.token (newIds db chat_id msgs).reverse db

/-- Fold of `pollChat` over the `(chat_id, mailbox_id)` pairs read from
`active_mailbox`, threading the database and concatenating the traces. -/
def pollChats (p : Provider) (now : Int) : List (Int × Nat) → DB → PollResult
  | [], db => ⟨db, [], []⟩
  | (chat_id, mailbox_id) :: rest, db =>
    let r := pollChat p now db chat_id mailbox_id
    let r2 := pollChats p now rest r.db
    ⟨r2.db, r.pushed ++ r2.pushed, r.reads ++ r2.reads⟩

/-- `poll_all_chats`: one polling cycle over every row of `active_mailbox`. -/
def poll_all_chats (p : Provider) (now : Int) (db : DB) : PollResult :=
  pollChats p now (db.active.map (fun a => (a.1, a.2.1))) db

/-! ### Account creation (`mailtm_create_account_and_token`) and handlers -/

/-- The mail.tm account endpoints as oracles: `accountOk addr` is whether
`POST /accounts` succeeds (status < 400) for that address, `tokenOf addr`
the result of `POST /token` (the password is fixed per creation attempt). -/
structure AcctProvider where
  accountOk : String → Bool
  tokenOf : String → Except Unit String

/-- `mailtm_create_account_and_token`: try `local1@domain`; if the provider
rejects it (status ≥ 400), retry exactly once with the freshly generated
`local2@domain`; `raise_for_status` then surfaces failure if the retry also
failed.  On success, obtain a token for the committed address. -/
def mailtm_create_account_and_token (p : AcctProvider)
    (domain local1 local2 password : String) :
    Except Unit (String × String × String) :=
  let address1 := local1 ++ "@" ++ domain
  let address := if p.accountOk address1 then address1 else local2 ++ "@" ++ domain
  if p.accountOk address then
    match p.tokenOf address with
    | .ok token => .ok (address, password, token)
    | .error e => .error e
  else .error ()

/-- The `BTN_NEW` branch of `handle_buttons`: create the account, persist it
with `db_save_mailbox`, and make it active.  An exception from creation
propagates before anything is persisted. -/
def handle_new (p : AcctProvider) (db : DB) (chat_id : Int)
    (domain local1 local2 password : String) (now : Int) :
    Except Unit (DB × String) :=
  match mailtm_create_account_and_token p domain local1 local2 password with
  | .error e => .error e
  | .ok (address, pw, token) =>
    let r := db_save_mailbox db chat_id address pw token now none
    .ok (db_set_active_mailbox r.2 chat_id r.1 now, address)

/-- The reuse-selection branch of `handle_buttons`: accept the id only if it
occurs in `db_list_mailboxes chat_id` (otherwise reply "not in your saved
list" and write nothing), then upsert the active selection.  The returned
`Bool` is whether the selection was accepted. -/
def handle_reuse_select (db : DB) (chat_id : Int) (mailbox_id : Nat)
    (now : Int) : DB × Bool :=
  if (db_list_mailboxes db chat_id).any (fun r => r.1 == mailbox_id) then
    (db_set_active_mailbox db chat_id mailbox_id now, true)
  else (db, false)

/-! ### Helper lemmas about the seen ledger -/

theorem db_is_seen_iff (db : DB) (c : Int) (m : String) :
    db_is_seen db c m = true ↔ ∃ t, (c, m, t) ∈ db.seen := by
  simp only [db_is_seen, List.any_eq_true, Bool.and_eq_true, beq_iff_eq]
  constructor
  · rintro ⟨⟨a, b, t⟩, hmem, h1, h2⟩
    simp only at h1 h2
    subst h1; subst h2
    exact ⟨t, hmem⟩
  · rintro ⟨t, hmem⟩
    exact ⟨(c, m, t), hmem, rfl, rfl⟩

theorem db_is_seen_mark (db : DB) (ch : Int) (md : String) (now : Int)
    (c : Int) (m : String) :
    db_is_seen (db_mark_seen db ch md now) c m = true ↔
      db_is_seen db c m = true ∨ (c = ch ∧ m = md) := by
  unfold db_mark_seen
  by_cases h : db.seen.any (fun r => r.1 == ch && r.2.1 == md) = true
  · rw [if_pos h]
    constructor
    · exact Or.inl
    · rintro (hs | ⟨hc, hm⟩)
      · exact hs
      · subst hc; subst hm
        exact h
  · rw [if_neg h]
    show (db.seen ++ [(ch, md, now)]).any _ = true ↔ _
    rw [List.any_append]
    simp only [Bool.or_eq_true, List.any_cons, List.any_nil, Bool.or_false,
      Bool.and_eq_true, beq_iff_eq, db_is_seen]
    constructor
    · rintro (hs | ⟨h1, h2⟩)
      · exact Or.inl hs
      · exact Or.inr ⟨h1.symm, h2.symm⟩
    · rintro (hs | ⟨h1, h2⟩)
      · exact Or.inl hs
      · exact Or.inr ⟨h1.symm, h2.symm⟩

/-! ### Helper lemmas about the per-message delivery loop -/

theorem deliverLoop_reads (p : Provider) (now : Int) (ch : Int) (tok : String)
    (mids : List String) (db : DB) :
    (deliverLoop p now ch tok mids db).reads = mids.map (fun m => (ch, m)) := by
  induction mids generalizing db with
  | nil => rfl
  | cons mid rest ih =>
    unfold deliverLoop
    cases hr : p.readMessage tok mid with
    | error e => simp [ih]
    | ok full =>
      by_cases hs : p.sendOk ch (format_full_message full) = true
      · simp [hs, ih]
      · simp [hs, ih]

theorem deliverLoop_seen (p : Provider) (now : Int) (ch : Int) (tok : String)
    (mids : List String) (db : DB) (c : Int) (m : String) :
    db_is_seen (deliverLoop p now ch tok mids db).db c m = true ↔
      db_is_seen db c m = true ∨
        ∃ t, (c, m, t) ∈ (deliverLoop p now ch tok mids db).pushed := by
  induction mids generalizing db with
  | nil => simp [deliverLoop]
  | cons mid rest ih =>
    unfold deliverLoop
    cases hr : p.readMessage tok mid with
    | error e => simpa using ih db
    | ok full =>
      by_cases hs : p.sendOk ch (format_full_message full) = true
      · simp only [hs, if_pos]
        rw [ih, db_is_seen_mark]
        simp only [List.mem_cons, Prod.mk.injEq]
        constructor
        · rintro ((h | ⟨hc, hm⟩) | ⟨t, ht⟩)
          · exact Or.inl h
          · exact Or.inr ⟨format_full_message full, Or.inl ⟨hc, hm, rfl⟩⟩
          · exact Or.inr ⟨t, Or.inr ht⟩
        · rintro (h | ⟨t, (⟨hc, hm, _⟩ | ht)⟩)
          · exact Or.inl (Or.inl h)
          · exact Or.inl (Or.inr ⟨hc, hm⟩)
          · exact Or.inr ⟨t, ht⟩
      · simp only [hs, if_neg]
        simpa using ih db

theorem deliverLoop_seen_mono (p : Provider) (now : Int) (ch : Int)
    (tok : String) (mids : List String) (db : DB) (c : Int) (m : String)
    (h : db_is_seen db c m = true) :
    db_is_seen (deliverLoop p now ch tok mids db).db c m = true :=
  (deliverLoop_seen p now ch tok mids db c m).2 (Or.inl h)

theorem deliverLoop_pushed_mem (p : Provider) (now : Int) (ch : Int)
    (tok : String) (mids : List String) (db : DB) (c : Int) (m : String)
    (t : String) (h : (c, m, t) ∈ (deliverLoop p now ch tok mids db).pushed) :
    c = ch ∧ m ∈ mids := by
  induction mids generalizing db with
  | nil => simp [deliverLoop] at h
  | cons mid rest ih =>
    unfold deliverLoop at h
    cases hr : p.readMessage tok mid with
    | error e =>
      rw [hr] at h
      rcases ih _ h with ⟨hc, hm⟩
      exact ⟨hc, List.mem_cons_of_mem _ hm⟩
    | ok full =>
      rw [hr] at h
      cases hs : p.sendOk ch (format_full_message full) with
      | true =>
        simp only [hs, ite_true, List.mem_cons, Prod.mk.injEq] at h
        rcases h with ⟨hc, hm, _⟩ | h
        · exact ⟨hc, by simp [hm]⟩
        · rcases ih _ h with ⟨hc, hm⟩
          exact ⟨hc, List.mem_cons_of_mem _ hm⟩
      | false =>
        simp only [hs, Bool.false_eq_true, ite_false] at h
        rcases ih _ h with ⟨hc, hm⟩
        exact ⟨hc, List.mem_cons_of_mem _ hm⟩

theorem deliverLoop_pushed_all_ok (p : Provider) (now : Int) (ch : Int)
    (tok : String) (mids : List String) (db : DB)
    (h : ∀ m ∈ mids, ∃ full, p.readMessage tok m = .ok full ∧
          p.sendOk ch (format_full_message full) = true) :
    (deliverLoop p now ch tok mids db).pushed.map (fun x => x.2.1) = mids := by
  induction mids generalizing db with
  | nil => rfl
  | cons mid rest ih =>
    rcases h mid (List.mem_cons_self mid rest) with ⟨full, hr, hs⟩
    unfold deliverLoop
    rw [hr]
    simp only [hs, ite_true, List.map_cons]
    rw [ih _ (fun m hm => h m (List.mem_cons_of_mem _ hm))]

/-! ### Helper lemmas about the per-tenant and whole-cycle polls -/

theorem newIds_mem (db : DB) (ch : Int) (msgs : List Summary) (m : String)
    (h : m ∈ newIds db ch msgs) :
    db_is_seen db ch m = false ∧ m ≠ "" ∧ ∃ s ∈ msgs, s.id = some m := by
  simp only [newIds, List.mem_filterMap] at h
  rcases h with ⟨s, hs, hmap⟩
  unfold newIdFilter at hmap
  cases hid : s.id with
  | none => rw [hid] at hmap; cases hmap
  | some i =>
    rw [hid] at hmap
    change (if (i ≠ "" && !db_is_seen db ch i) = true then some i else none) =
      some m at hmap
    by_cases hc : (i ≠ "" && !db_is_seen db ch i) = true
    · rw [if_pos hc] at hmap
      cases hmap
      simp only [Bool.and_eq_true, ne_eq, decide_not, Bool.not_eq_true',
        decide_eq_false_iff_not, Bool.not_eq_true] at hc
      exact ⟨hc.2, hc.1, s, hs, hid⟩
    · rw [if_neg hc] at hmap
      cases hmap

theorem pollChat_eq_no_token (p : Provider) (now : Int) (db : DB) (ch : Int)
    (mb : Nat)
    (hf : db.mailboxes.find? (fun x => x.id == mb && x.chat_id == ch) = none) :
    pollChat p now db ch mb = ⟨db, [], []⟩ := by
  unfold pollChat
  rw [hf]

theorem pollChat_eq_list_fail (p : Provider) (now : Int) (db : DB) (ch : Int)
    (mb : Nat) (mbx : MailboxRow) (e : Unit)
    (hf : db.mailboxes.find? (fun x => x.id == mb && x.chat_id == ch) = some mbx)
    (hl : p.listMessages mbx.token = .error e) :
    pollChat p now db ch mb = ⟨db, [], []⟩ := by
  unfold pollChat
  rw [hf]
  show (match p.listMessages mbx.token with
    | Except.error _ => (⟨db, [], []⟩ : PollResult)
    | Except.ok msgs => deliverLoop p now ch mbx.token (newIds db ch msgs).reverse db) = _
  rw [hl]

theorem pollChat_eq_ok (p : Provider) (now : Int) (db : DB) (ch : Int)
    (mb : Nat) (mbx : MailboxRow) (msgs : List Summary)
    (hf : db.mailboxes.find? (fun x => x.id == mb && x.chat_id == ch) = some mbx)
    (hl : p.listMessages mbx.token = .ok msgs) :
    pollChat p now db ch mb =
      deliverLoop p now ch mbx.token (newIds db ch msgs).reverse db := by
  unfold pollChat
  rw [hf]
  show (match p.listMessages mbx.token with
    | Except.error _ => (⟨db, [], []⟩ : PollResult)
    | Except.ok msgs => deliverLoop p now ch mbx.token (newIds db ch msgs).reverse db) = _
  rw [hl]

theorem pollChat_seen (p : Provider) (now : Int) (db : DB) (ch : Int)
    (mb : Nat) (c : Int) (m : String) :
    db_is_seen (pollChat p now db ch mb).db c m = true ↔
      db_is_seen db c m = true ∨
        ∃ t, (c, m, t) ∈ (pollChat p now db ch mb).pushed := by
  cases hf : db.mailboxes.find? (fun x => x.id == mb && x.chat_id == ch) with
  | none => rw [pollChat_eq_no_token p now db ch mb hf]; simp
  | some mbx =>
    cases hl : p.listMessages mbx.token with
    | error e => rw [pollChat_eq_list_fail p now db ch mb mbx e hf hl]; simp
    | ok msgs =>
      rw [pollChat_eq_ok p now db ch mb mbx msgs hf hl]
      exact deliverLoop_seen p now ch mbx.token _ db c m

theorem pollChat_seen_mono (p : Provider) (now : Int) (db : DB) (ch : Int)
    (mb : Nat) (c : Int) (m : String) (h : db_is_seen db c m = true) :
    db_is_seen (pollChat p now db ch mb).db c m = true :=
  (pollChat_seen p now db ch mb c m).2 (Or.inl h)

theorem pollChat_reads_unseen (p : Provider) (now : Int) (db : DB) (ch : Int)
    (mb : Nat) (c : Int) (m : String)
    (h : (c, m) ∈ (pollChat p now db ch mb).reads) :
    c = ch ∧ db_is_seen db c m = false := by
  cases hf : db.mailboxes.find? (fun x => x.id == mb && x.chat_id == ch) with
  | none => rw [pollChat_eq_no_token p now db ch mb hf] at h; simp at h
  | some mbx =>
    cases hl : p.listMessages mbx.token with
    | error e => rw [pollChat_eq_list_fail p now db ch mb mbx e hf hl] at h; simp at h
    | ok msgs =>
      rw [pollChat_eq_ok p now db ch mb mbx msgs hf hl] at h
      rw [deliverLoop_reads] at h
      simp only [List.mem_map, Prod.mk.injEq] at h
      rcases h with ⟨i, hi, hc, hm⟩
      subst hc; subst hm
      rw [List.mem_reverse] at hi
      exact ⟨rfl, (newIds_mem db ch msgs i hi).1⟩

theorem pollChat_pushed_unseen (p : Provider) (now : Int) (db : DB) (ch : Int)
    (mb : Nat) (c : Int) (m : String) (t : String)
    (h : (c, m, t) ∈ (pollChat p now db ch mb).pushed) :
    c = ch ∧ db_is_seen db c m = false := by
  cases hf : db.mailboxes.find? (fun x => x.id == mb && x.chat_id == ch) with
  | none => rw [pollChat_eq_no_token p now db ch mb hf] at h; simp at h
  | some mbx =>
    cases hl : p.listMessages mbx.token with
    | error e => rw [pollChat_eq_list_fail p now db ch mb mbx e hf hl] at h; simp at h
    | ok msgs =>
      rw [pollChat_eq_ok p now db ch mb mbx msgs hf hl] at h
      rcases deliverLoop_pushed_mem p now ch mbx.token _ db c m t h with ⟨hc, hm⟩
      subst hc
      rw [List.mem_reverse] at hm
      exact ⟨rfl, (newIds_mem db c msgs m hm).1⟩

theorem pollChats_seen (p : Provider) (now : Int) (l : List (Int × Nat))
    (db : DB) (c : Int) (m : String) :
    db_is_seen (pollChats p now l db).db c m = true ↔
      db_is_seen db c m = true ∨
        ∃ t, (c, m, t) ∈ (pollChats p now l db).pushed := by
  induction l generalizing db with
  | nil => simp [pollChats]
  | cons pair rest ih =>
    obtain ⟨ch, mb⟩ := pair
    show db_is_seen (pollChats p now rest (pollChat p now db ch mb).db).db c m = true ↔
      _ ∨ ∃ t, (c, m, t) ∈ (pollChat p now db ch mb).pushed ++
        (pollChats p now rest (pollChat p now db ch mb).db).pushed
    rw [ih]
    rw [pollChat_seen]
    constructor
    · rintro ((h | ⟨t, ht⟩) | ⟨t, ht⟩)
      · exact Or.inl h
      · exact Or.inr ⟨t, List.mem_append_left _ ht⟩
      · exact Or.inr ⟨t, List.mem_append_right _ ht⟩
    · rintro (h | ⟨t, ht⟩)
      · exact Or.inl (Or.inl h)
      · rcases List.mem_append.1 ht with h1 | h2
        · exact Or.inl (Or.inr ⟨t, h1⟩)
        · exact Or.inr ⟨t, h2⟩

theorem pollChats_seen_mono (p : Provider) (now : Int) (l : List (Int × Nat))
    (db : DB) (c : Int) (m : String) (h : db_is_seen db c m = true) :
    db_is_seen (pollChats p now l db).db c m = true :=
  (pollChats_seen p now l db c m).2 (Or.inl h)

theorem pollChats_reads_unseen (p : Provider) (now : Int) (l : List (Int × Nat))
    (db : DB) (c : Int) (m : String)
    (h : (c, m) ∈ (pollChats p now l db).reads) :
    db_is_seen db c m = false := by
  induction l generalizing db with
  | nil => simp [pollChats] at h
  | cons pair rest ih =>
    obtain ⟨ch, mb⟩ := pair
    have h' : (c, m) ∈ (pollChat p now db ch mb).reads ++
        (pollChats p now rest (pollChat p now db ch mb).db).reads := h
    rcases List.mem_append.1 h' with h1 | h2
    · exact (pollChat_reads_unseen p now db ch mb c m h1).2
    · by_contra hcon
      rw [Bool.not_eq_false] at hcon
      have := pollChat_seen_mono p now db ch mb c m hcon
      rw [ih _ h2] at this
      cases this

theorem pollChats_pushed_unseen (p : Provider) (now : Int)
    (l : List (Int × Nat)) (db : DB) (c : Int) (m : String) (t : String)
    (h : (c, m, t) ∈ (pollChats p now l db).pushed) :
    db_is_seen db c m = false := by
  induction l generalizing db with
  | nil => simp [pollChats] at h
  | cons pair rest ih =>
    obtain ⟨ch, mb⟩ := pair
    have h' : (c, m, t) ∈ (pollChat p now db ch mb).pushed ++
        (pollChats p now rest (pollChat p now db ch mb).db).pushed := h
    rcases List.mem_append.1 h' with h1 | h2
    · exact (pollChat_pushed_unseen p now db ch mb c m t h1).2
    · by_contra hcon
      rw [Bool.not_eq_false] at hcon
      have := pollChat_seen_mono p now db ch mb c m hcon
      rw [ih _ h2] at this
      cases this

theorem deliverLoop_cons_read_fail (p : Provider) (now : Int) (ch : Int)
    (tok : String) (mid : String) (rest : List String) (db : DB) (e : Unit)
    (hr : p.readMessage tok mid = .error e) :
    deliverLoop p now ch tok (mid :: rest) db =
      ⟨(deliverLoop p now ch tok rest db).db,
       (deliverLoop p now ch tok rest db).pushed,
       (ch, mid) :: (deliverLoop p now ch tok rest db).reads⟩ := by
  conv_lhs => unfold deliverLoop
  rw [hr]

theorem deliverLoop_cons_send_fail (p : Provider) (now : Int) (ch : Int)
    (tok : String) (mid : String) (rest : List String) (db : DB)
    (full : FullMsg) (hr : p.readMessage tok mid = .ok full)
    (hs : p.sendOk ch (format_full_message full) = false) :
    deliverLoop p now ch tok (mid :: rest) db =
      ⟨(deliverLoop p now ch tok rest db).db,
       (deliverLoop p now ch tok rest db).pushed,
       (ch, mid) :: (deliverLoop p now ch tok rest db).reads⟩ := by
  conv_lhs => unfold deliverLoop
  rw [hr]
  simp only [hs, Bool.false_eq_true, ite_false]

theorem newIds_of_all_unseen (db : DB) (ch : Int) (msgs : List Summary)
    (hids : ∀ s ∈ msgs, ∃ i, s.id = some i ∧ i ≠ "" ∧
      db_is_seen db ch i = false) :
    newIds db ch msgs = msgs.filterMap Summary.id := by
  induction msgs with
  | nil => rfl
  | cons s rest ih =>
    rcases hids s (List.mem_cons_self s rest) with ⟨i, hid, hne, hseen⟩
    have ih' := ih (fun s hs => hids s (List.mem_cons_of_mem _ hs))
    have hfa : newIdFilter db ch s = some i := by
      unfold newIdFilter
      rw [hid]
      change (if (i ≠ "" && !db_is_seen db ch i) = true then some i else none) =
        some i
      rw [if_pos (by simp [hne, hseen])]
    show List.filterMap (newIdFilter db ch) (s :: rest) = _
    rw [List.filterMap_cons_some hfa, List.filterMap_cons_some hid]
    rw [show List.filterMap (newIdFilter db ch) rest = newIds db ch rest from rfl,
      ih']

theorem newIds_mem_iff (db : DB) (ch : Int) (msgs : List Summary)
    (i : String) :
    i ∈ newIds db ch msgs ↔
      (∃ s ∈ msgs, s.id = some i) ∧ i ≠ "" ∧ db_is_seen db ch i = false := by
  constructor
  · intro h
    rcases newIds_mem db ch msgs i h with ⟨hseen, hne, hs⟩
    exact ⟨hs, hne, hseen⟩
  · rintro ⟨⟨s, hs, hid⟩, hne, hseen⟩
    have hfa : newIdFilter db ch s = some i := by
      unfold newIdFilter
      rw [hid]
      change (if (i ≠ "" && !db_is_seen db ch i) = true then some i else none) =
        some i
      rw [if_pos (by simp [hne, hseen])]
    exact List.mem_filterMap.2 ⟨s, hs, hfa⟩

theorem pollChats_cons (p : Provider) (now : Int) (ch : Int) (mb : Nat)
    (rest : List (Int × Nat)) (db : DB) :
    pollChats p now ((ch, mb) :: rest) db =
      ⟨(pollChats p now rest (pollChat p now db ch mb).db).db,
       (pollChat p now db ch mb).pushed ++
         (pollChats p now rest (pollChat p now db ch mb).db).pushed,
       (pollChat p now db ch mb).reads ++
         (pollChats p now rest (pollChat p now db ch mb).db).reads⟩ := rfl

/-! ### Helper lemmas about the mailbox registry -/

theorem list_mailboxes_any_iff (db : DB) (chat : Int) (mid : Nat) :
    (db_list_mailboxes db chat).any (fun r => r.1 == mid) = true ↔
      ∃ r ∈ db.mailboxes, r.chat_id = chat ∧ r.id = mid := by
  simp only [db_list_mailboxes, List.any_eq_true, List.mem_map,
    List.mem_mergeSort, List.mem_filter, Bool.and_eq_true, beq_iff_eq]
  constructor
  · rintro ⟨x, ⟨m, ⟨hm, hc⟩, rfl⟩, hid⟩
    exact ⟨m, hm, hc, hid⟩
  · rintro ⟨r, hm, hc, hid⟩
    exact ⟨(r.id, r.address, r.label, r.created_at), ⟨r, ⟨hm, hc⟩, rfl⟩, hid⟩

theorem upsert_find (l : List (Int × Nat × Int)) (chat : Int) (mid : Nat)
    (now : Int) :
    (if l.any (fun a => a.1 == chat) then
        l.map (fun a => if a.1 == chat then (chat, mid, now) else a)
      else l ++ [(chat, mid, now)]).find? (fun a => a.1 == chat) =
      some (chat, mid, now) := by
  induction l with
  | nil => simp
  | cons a rest ih =>
    by_cases h : (a.1 == chat) = true
    · simp only [List.any_cons, h, Bool.true_or, ite_true, List.map_cons,
        if_pos h]
      rw [List.find?_cons_of_pos]
      simp
    · simp only [List.any_cons, h, Bool.false_or, List.map_cons, if_neg h]
      by_cases h2 : rest.any (fun a => a.1 == chat) = true
      · rw [if_pos h2]
        rw [List.find?_cons_of_neg _ (by simp_all)]
        have := ih
        rw [if_pos h2] at this
        exact this
      · rw [if_neg h2]
        show ((a :: rest) ++ [(chat, mid, now)]).find? _ = _
        rw [List.cons_append, List.find?_cons_of_neg _ (by simp_all)]
        have := ih
        rw [if_neg h2] at this
        exact this

theorem set_active_find (db : DB) (chat : Int) (mid : Nat) (now : Int) :
    (db_set_active_mailbox db chat mid now).active.find?
      (fun a => a.1 == chat) = some (chat, mid, now) := by
  unfold db_set_active_mailbox
  by_cases h : db.active.any (fun a => a.1 == chat) = true
  · rw [if_pos h]
    have := upsert_find db.active chat mid now
    rw [if_pos h] at this
    exact this
  · rw [if_neg h]
    have := upsert_find db.active chat mid now
    rw [if_neg h] at this
    exact this

theorem set_active_mailboxes_eq (db : DB) (chat : Int) (mid : Nat)
    (now : Int) :
    (db_set_active_mailbox db chat mid now).mailboxes = db.mailboxes := by
  unfold db_set_active_mailbox
  by_cases h : db.active.any (fun a => a.1 == chat) = true
  · rw [if_pos h]
  · rw [if_neg h]

theorem set_active_seen_eq (db : DB) (chat : Int) (mid : Nat) (now : Int) :
    (db_set_active_mailbox db chat mid now).seen = db.seen := by
  unfold db_set_active_mailbox
  by_cases h : db.active.any (fun a => a.1 == chat) = true
  · rw [if_pos h]
  · rw [if_neg h]

theorem set_active_all_chat (db : DB) (chat : Int) (mid : Nat) (now : Int)
    (a : Int × Nat × Int)
    (ha : a ∈ (db_set_active_mailbox db chat mid now).active)
    (hc : a.1 = chat) : a = (chat, mid, now) := by
  unfold db_set_active_mailbox at ha
  by_cases h : db.active.any (fun a => a.1 == chat) = true
  · rw [if_pos h] at ha
    simp only [List.mem_map] at ha
    rcases ha with ⟨b, hb, hab⟩
    by_cases hbc : (b.1 == chat) = true
    · rw [if_pos hbc] at hab
      exact hab.symm
    · rw [if_neg hbc] at hab
      subst hab
      exact absurd (by simp [hc]) hbc
  · rw [if_neg h] at ha
    rcases List.mem_append.1 ha with hb | hb
    · exfalso
      rw [List.any_eq_true] at h
      exact h ⟨a, hb, by simp [hc]⟩
    · simpa using hb

theorem find?_id_unique (l : List MailboxRow) (m : MailboxRow)
    (hmem : m ∈ l) (hnd : (l.map MailboxRow.id).Nodup) :
    l.find? (fun r => r.id == m.id) = some m := by
  induction l with
  | nil => cases hmem
  | cons a rest ih =>
    rcases List.mem_cons.1 hmem with rfl | hmem'
    · rw [List.find?_cons_of_pos _ (by simp)]
    · have hne : a.id ≠ m.id := by
        intro he
        have : m.id ∈ rest.map MailboxRow.id := List.mem_map_of_mem _ hmem'
        rw [List.map_cons, List.nodup_cons] at hnd
        exact hnd.1 (he ▸ this)
      rw [List.find?_cons_of_neg _ (by simp [hne])]
      exact ih hmem' (by rw [List.map_cons, List.nodup_cons] at hnd; exact hnd.2)

theorem get_active_eq (db : DB) (chat : Int) (row : Int × Nat × Int)
    (m : MailboxRow)
    (h1 : db.active.find? (fun a => a.1 == chat) = some row)
    (h2 : db.mailboxes.find? (fun x => x.id == row.2.1) = some m) :
    db_get_active_mailbox db chat =
      some (m.id, m.address, m.password, m.token) := by
  unfold db_get_active_mailbox
  rw [h1]
  show (match db.mailboxes.find? (fun x => x.id == row.2.1) with
    | none => none
    | some m => some (m.id, m.address, m.password, m.token)) = _
  rw [h2]

theorem get_active_none_of_no_active (db : DB) (chat : Int)
    (h : db.active.find? (fun a => a.1 == chat) = none) :
    db_get_active_mailbox db chat = none := by
  unfold db_get_active_mailbox
  rw [h]

/-! ### Concrete fixtures used by witness theorems -/

def mbA : MailboxRow := ⟨1, 10, "a@x", "pw", "tokA", 100, none⟩

def mbB : MailboxRow := ⟨2, 11, "b@x", "pw2", "tokB", 200, none⟩

def dbW : DB := ⟨[mbA, mbB], 3, [(10, 1, 50), (11, 2, 60)], []⟩

def dbSeen : DB := ⟨[mbA, mbB], 3, [(10, 1, 50), (11, 2, 60)], [(10, "m2", 1)]⟩

def msgsW : List Summary := [⟨some "m3"⟩, ⟨some "m2"⟩, ⟨some "m1"⟩]

def fullW (i : String) : FullMsg :=
  ⟨some "s@y", some ("subj " ++ i), [], some "d", some ("body " ++ i), []⟩

def provW : Provider :=
  ⟨fun _ => .ok msgsW, fun _ i => .ok (fullW i), fun _ _ => true⟩

def provListFail : Provider :=
  ⟨fun tok => if tok == "tokA" then .error () else .ok msgsW,
   fun _ i => .ok (fullW i), fun _ _ => true⟩

def provReadFail : Provider :=
  ⟨fun _ => .ok msgsW,
   fun _ i => if i == "bad" then .error () else .ok (fullW i),
   fun _ _ => true⟩

def provSendFail : Provider :=
  ⟨fun _ => .ok msgsW, fun _ i => .ok (fullW i), fun _ _ => false⟩

/-! ### Claim theorems -/

/-- C1: in a polling cycle, a message is marked delivered in the seen ledger
if and only if it was already marked before the cycle or its formatted text
was pushed to the chat with the push confirmed successful; in particular a
failed push leaves `db_is_seen` false, so the message stays eligible for
retry in a later cycle. -/
theorem C1_seen_iff_push_confirmed (p : Provider) (now : Int) (db : DB)
    (chat_id : Int) (mid : String) :
    db_is_seen (poll_all_chats p now db).db chat_id mid = true ↔
      db_is_seen db chat_id mid = true ∨
        ∃ text, (chat_id, mid, text) ∈ (poll_all_chats p now db).pushed := by
  unfold poll_all_chats
  exact pollChats_seen p now _ db chat_id mid

/-- C2: once a message is marked delivered for a tenant, a polling cycle
never attempts `readMessage` on it and never pushes it again, and it stays
marked afterwards — the `db_is_seen` gate is applied to each listed summary
before any read call is spent on it. -/
theorem C2_delivered_never_reprocessed (p : Provider) (now : Int) (db : DB)
    (chat_id : Int) (mid : String)
    (h : db_is_seen db chat_id mid = true) :
    (chat_id, mid) ∉ (poll_all_chats p now db).reads ∧
    (∀ text, (chat_id, mid, text) ∉ (poll_all_chats p now db).pushed) ∧
    db_is_seen (poll_all_chats p now db).db chat_id mid = true := by
  unfold poll_all_chats
  refine ⟨?_, ?_, ?_⟩
  · intro hmem
    have hc := pollChats_reads_unseen p now _ db chat_id mid hmem
    rw [h] at hc
    cases hc
  · intro text hmem
    have hc := pollChats_pushed_unseen p now _ db chat_id mid text hmem
    rw [h] at hc
    cases hc
  · exact pollChats_seen_mono p now _ db chat_id mid h

theorem C2_delivered_never_reprocessed_witness :
    (10, "m2") ∉ (poll_all_chats provW 7 dbSeen).reads ∧
    (∀ text, ((10 : Int), "m2", text) ∉ (poll_all_chats provW 7 dbSeen).pushed) ∧
    db_is_seen (poll_all_chats provW 7 dbSeen).db 10 "m2" = true :=
  C2_delivered_never_reprocessed provW 7 dbSeen 10 "m2" (by decide)

/-- C3: given any newest-first listing (seen and unseen messages mixed),
the per-tenant poll pushes exactly the unseen subset — the listed ids with a
truthy id that are not yet marked delivered, as the accompanying
characterisation of `newIds` states — in reversed, i.e. chronological
oldest-first, order, provided every read and push of those messages
succeeds. -/
theorem C3_unseen_delivered_oldest_first (p : Provider) (now : Int) (db : DB)
    (chat_id : Int) (mailbox_id : Nat) (mbx : MailboxRow)
    (msgs : List Summary)
    (hf : db.mailboxes.find? (fun x => x.id == mailbox_id && x.chat_id == chat_id) =
      some mbx)
    (hl : p.listMessages mbx.token = .ok msgs)
    (hread : ∀ i, ∃ full, p.readMessage mbx.token i = .ok full ∧
      p.sendOk chat_id (format_full_message full) = true) :
    (pollChat p now db chat_id mailbox_id).pushed.map (fun x => x.2.1) =
      (newIds db chat_id msgs).reverse ∧
    ∀ i, i ∈ newIds db chat_id msgs ↔
      (∃ s ∈ msgs, s.id = some i) ∧ i ≠ "" ∧
        db_is_seen db chat_id i = false := by
  constructor
  · rw [pollChat_eq_ok p now db chat_id mailbox_id mbx msgs hf hl]
    exact deliverLoop_pushed_all_ok p now chat_id mbx.token _ db
      (fun m _ => hread m)
  · exact newIds_mem_iff db chat_id msgs

theorem C3_unseen_delivered_oldest_first_witness :
    ((pollChat provW 7 dbSeen 10 1).pushed.map (fun x => x.2.1) =
      ["m1", "m3"] ∧
    (pollChat provW 7 dbW 10 1).pushed.map (fun x => x.2.1) =
      ["m1", "m2", "m3"]) ∧
    ("m2" ∈ newIds dbSeen 10 msgsW ↔
      (∃ s ∈ msgsW, s.id = some "m2") ∧ "m2" ≠ "" ∧
        db_is_seen dbSeen 10 "m2" = false) := by
  have hmix := C3_unseen_delivered_oldest_first provW 7 dbSeen 10 1 mbA msgsW
    rfl rfl (fun i => ⟨fullW i, rfl, rfl⟩)
  have hall := C3_unseen_delivered_oldest_first provW 7 dbW 10 1 mbA msgsW
    rfl rfl (fun i => ⟨fullW i, rfl, rfl⟩)
  exact ⟨⟨hmix.1.trans rfl, hall.1.trans rfl⟩, hmix.2 "m2"⟩

/-- C7: failures are contained per tenant and per message: a failing
message-listing call makes the cycle treat that tenant exactly as if it were
absent (every other tenant is processed identically), a failing read skips
only that message (the database and the pushes for the remaining messages
are unchanged, only the read attempt is recorded), and a failing push
likewise skips only that message; no failure escapes the cycle. -/
theorem C7_failure_containment :
    (∀ (p : Provider) (now : Int) (db : DB) (ch : Int) (mb : Nat)
       (mbx : MailboxRow) (e : Unit) (rest : List (Int × Nat)),
       db.mailboxes.find? (fun x => x.id == mb && x.chat_id == ch) = some mbx →
       p.listMessages mbx.token = .error e →
       pollChats p now ((ch, mb) :: rest) db = pollChats p now rest db) ∧
    (∀ (p : Provider) (now ch : Int) (tok : String) (db : DB) (mid : String)
       (rest : List String) (e : Unit),
       p.readMessage tok mid = .error e →
       deliverLoop p now ch tok (mid :: rest) db =
         ⟨(deliverLoop p now ch tok rest db).db,
          (deliverLoop p now ch tok rest db).pushed,
          (ch, mid) :: (deliverLoop p now ch tok rest db).reads⟩) ∧
    (∀ (p : Provider) (now ch : Int) (tok : String) (db : DB) (mid : String)
       (rest : List String) (full : FullMsg),
       p.readMessage tok mid = .ok full →
       p.sendOk ch (format_full_message full) = false →
       deliverLoop p now ch tok (mid :: rest) db =
         ⟨(deliverLoop p now ch tok rest db).db,
          (deliverLoop p now ch tok rest db).pushed,
          (ch, mid) :: (deliverLoop p now ch tok rest db).reads⟩) := by
  refine ⟨?_, ?_, ?_⟩
  · intro p now db ch mb mbx e rest hf hl
    rw [pollChats_cons, pollChat_eq_list_fail p now db ch mb mbx e hf hl]
    simp
  · intro p now ch tok db mid rest e hr
    exact deliverLoop_cons_read_fail p now ch tok mid rest db e hr
  · intro p now ch tok db mid rest full hr hs
    exact deliverLoop_cons_send_fail p now ch tok mid rest db full hr hs

theorem C7_failure_containment_witness :
    pollChats provListFail 7 [(10, 1), (11, 2)] dbW =
      pollChats provListFail 7 [(11, 2)] dbW ∧
    deliverLoop provReadFail 7 10 "tokA" ["bad", "m1"] dbW =
      ⟨(deliverLoop provReadFail 7 10 "tokA" ["m1"] dbW).db,
       (deliverLoop provReadFail 7 10 "tokA" ["m1"] dbW).pushed,
       (10, "bad") :: (deliverLoop provReadFail 7 10 "tokA" ["m1"] dbW).reads⟩ ∧
    deliverLoop provSendFail 7 10 "tokA" ["m1", "m2"] dbW =
      ⟨(deliverLoop provSendFail 7 10 "tokA" ["m2"] dbW).db,
       (deliverLoop provSendFail 7 10 "tokA" ["m2"] dbW).pushed,
       (10, "m1") :: (deliverLoop provSendFail 7 10 "tokA" ["m2"] dbW).reads⟩ :=
  ⟨C7_failure_containment.1 provListFail 7 dbW 10 1 mbA () [(11, 2)] rfl rfl,
   C7_failure_containment.2.1 provReadFail 7 10 "tokA" dbW "bad" ["m1"] () rfl,
   C7_failure_containment.2.2 provSendFail 7 10 "tokA" dbW "m1" ["m2"]
     (fullW "m1") rfl rfl⟩

/-- C4: selecting a mailbox to reuse is rejected — nothing is written and the
handler reports failure — when the id does not belong to a mailbox of this
tenant; when it does belong, the active selection is replaced by the new
choice (last-writer-wins upsert keyed on the chat), with the mailbox and
seen tables untouched. -/
theorem C4_setActive_requires_ownership (db : DB) (chat : Int) (mid : Nat)
    (now : Int) :
    ((¬ ∃ r ∈ db.mailboxes, r.chat_id = chat ∧ r.id = mid) →
       handle_reuse_select db chat mid now = (db, false)) ∧
    ((∃ r ∈ db.mailboxes, r.chat_id = chat ∧ r.id = mid) →
       (handle_reuse_select db chat mid now).2 = true ∧
       (handle_reuse_select db chat mid now).1.active.find?
         (fun a => a.1 == chat) = some (chat, mid, now) ∧
       (handle_reuse_select db chat mid now).1.mailboxes = db.mailboxes ∧
       (handle_reuse_select db chat mid now).1.seen = db.seen) := by
  constructor
  · intro hno
    unfold handle_reuse_select
    rw [if_neg (fun hany => hno ((list_mailboxes_any_iff db chat mid).1 hany))]
  · intro hyes
    unfold handle_reuse_select
    rw [if_pos ((list_mailboxes_any_iff db chat mid).2 hyes)]
    exact ⟨rfl, set_active_find db chat mid now,
      set_active_mailboxes_eq db chat mid now, set_active_seen_eq db chat mid now⟩

theorem C4_setActive_requires_ownership_witness :
    handle_reuse_select dbW 10 7 500 = (dbW, false) ∧
    ((handle_reuse_select dbW 10 1 500).2 = true ∧
     (handle_reuse_select dbW 10 1 500).1.active.find?
       (fun a => a.1 == 10) = some (10, 1, 500) ∧
     (handle_reuse_select dbW 10 1 500).1.mailboxes = dbW.mailboxes ∧
     (handle_reuse_select dbW 10 1 500).1.seen = dbW.seen) :=
  ⟨(C4_setActive_requires_ownership dbW 10 7 500).1 (by decide),
   (C4_setActive_requires_ownership dbW 10 1 500).2 (by decide)⟩

/-- C5: selecting an owned mailbox and then reading the active mailbox
returns exactly that mailbox; deleting the active mailbox removes its row
and clears the selection in the same transaction, so the subsequent lookup
returns none and no dangling row remains. -/
theorem C5_active_select_then_delete (db : DB) (chat : Int) (m : MailboxRow)
    (now : Int) (hmem : m ∈ db.mailboxes) (hown : m.chat_id = chat)
    (hnd : (db.mailboxes.map MailboxRow.id).Nodup) :
    (handle_reuse_select db chat m.id now).2 = true ∧
    db_get_active_mailbox (handle_reuse_select db chat m.id now).1 chat =
      some (m.id, m.address, m.password, m.token) ∧
    db_get_active_mailbox
      (db_delete_mailbox (handle_reuse_select db chat m.id now).1 chat m.id)
      chat = none ∧
    ∀ r ∈ (db_delete_mailbox (handle_reuse_select db chat m.id now).1
        chat m.id).mailboxes,
      ¬(r.chat_id = chat ∧ r.id = m.id) := by
  have hsel : handle_reuse_select db chat m.id now =
      (db_set_active_mailbox db chat m.id now, true) := by
    unfold handle_reuse_select
    rw [if_pos ((list_mailboxes_any_iff db chat m.id).2 ⟨m, hmem, hown, rfl⟩)]
  rw [hsel]
  refine ⟨rfl, ?_, ?_, ?_⟩
  · exact get_active_eq _ chat (chat, m.id, now) m
      (set_active_find db chat m.id now)
      (by rw [set_active_mailboxes_eq]; exact find?_id_unique db.mailboxes m hmem hnd)
  · refine get_active_none_of_no_active _ chat ?_
    rw [List.find?_eq_none]
    intro a ha
    simp only [db_delete_mailbox, List.mem_filter] at ha
    intro hEq
    have heq : a = (chat, m.id, now) :=
      set_active_all_chat db chat m.id now a ha.1 (by simpa using hEq)
    rw [heq] at ha
    simp at ha
  · intro r hr
    simp only [db_delete_mailbox, set_active_mailboxes_eq, List.mem_filter] at hr
    rintro ⟨hc, hi⟩
    rw [hc, hi] at hr
    simp at hr

theorem C5_active_select_then_delete_witness :
    (handle_reuse_select dbW 10 mbA.id 500).2 = true ∧
    db_get_active_mailbox (handle_reuse_select dbW 10 mbA.id 500).1 10 =
      some (mbA.id, mbA.address, mbA.password, mbA.token) ∧
    db_get_active_mailbox
      (db_delete_mailbox (handle_reuse_select dbW 10 mbA.id 500).1 10 mbA.id)
      10 = none ∧
    ∀ r ∈ (db_delete_mailbox (handle_reuse_select dbW 10 mbA.id 500).1
        10 mbA.id).mailboxes,
      ¬(r.chat_id = 10 ∧ r.id = mbA.id) :=
  C5_active_select_then_delete dbW 10 mbA 500 (by decide) rfl (by decide)

theorem db_save_mailbox_dup (db : DB) (chat : Int) (addr pw tok : String)
    (now : Int) (lbl : Option String) (r : MailboxRow)
    (hmem : r ∈ db.mailboxes) (hchat : r.chat_id = chat)
    (haddr : r.address = addr)
    (huniq : ∀ x ∈ db.mailboxes, x.chat_id = chat → x.address = addr → x = r) :
    db_save_mailbox db chat addr pw tok now lbl = (r.id, db) := by
  have hany : db.mailboxes.any
      (fun x => x.chat_id == chat && x.address == addr) = true :=
    List.any_eq_true.2 ⟨r, hmem, by simp [hchat, haddr]⟩
  unfold db_save_mailbox
  rw [if_pos hany]
  cases hfind : db.mailboxes.find?
      (fun x => x.chat_id == chat && x.address == addr) with
  | none =>
    exfalso
    rw [List.find?_eq_none] at hfind
    exact hfind r hmem (by simp [hchat, haddr])
  | some x =>
    have hx := List.find?_some hfind
    have hxm := List.mem_of_find?_eq_some hfind
    simp only [Bool.and_eq_true, beq_iff_eq] at hx
    have hxr : x = r := huniq x hxm hx.1 hx.2
    subst hxr
    show (match db.mailboxes.find?
        (fun x => x.chat_id == chat && x.address == addr) with
      | some rr => (rr.id, db)
      | none => (0, db)) = (x.id, db)
    rw [hfind]

theorem db_save_mailbox_fresh (db : DB) (chat : Int) (addr pw tok : String)
    (now : Int) (lbl : Option String)
    (hfresh : ∀ x ∈ db.mailboxes, ¬(x.chat_id = chat ∧ x.address = addr)) :
    db_save_mailbox db chat addr pw tok now lbl =
      (db.nextId,
       { db with
         mailboxes := db.mailboxes ++
           [⟨db.nextId, chat, addr, pw, tok, now, lbl⟩],
         nextId := db.nextId + 1 }) := by
  have hany : db.mailboxes.any
      (fun x => x.chat_id == chat && x.address == addr) = false := by
    rw [← Bool.not_eq_true, List.any_eq_true]
    rintro ⟨x, hx, hpred⟩
    simp only [Bool.and_eq_true, beq_iff_eq] at hpred
    exact hfresh x hx hpred
  have hnone : db.mailboxes.find?
      (fun x => x.chat_id == chat && x.address == addr) = none := by
    rw [List.find?_eq_none]
    intro x hx hpred
    simp only [Bool.and_eq_true, beq_iff_eq] at hpred
    exact hfresh x hx hpred
  unfold db_save_mailbox
  rw [if_neg (by simp [hany])]
  show (match (db.mailboxes ++
      [(⟨db.nextId, chat, addr, pw, tok, now, lbl⟩ : MailboxRow)]).find?
        (fun x => x.chat_id == chat && x.address == addr) with
    | some rr => ((rr.id,
        { db with
          mailboxes := db.mailboxes ++
            [(⟨db.nextId, chat, addr, pw, tok, now, lbl⟩ : MailboxRow)],
          nextId := db.nextId + 1 }) : Nat × DB)
    | none => ((0,
        { db with
          mailboxes := db.mailboxes ++
            [(⟨db.nextId, chat, addr, pw, tok, now, lbl⟩ : MailboxRow)],
          nextId := db.nextId + 1 }) : Nat × DB)) = _
  rw [List.find?_append, hnone, Option.none_or,
    List.find?_cons_of_pos _ (by simp)]

/-- C6: the `(tenant, address)` pair is unique in the mailbox store: saving
an address that already exists for the tenant inserts no row (the table is
unchanged) and returns the id of the existing mailbox. -/
theorem C6_address_unique_per_tenant (db : DB) (chat : Int)
    (addr pw tok : String) (now : Int) (lbl : Option String) (r : MailboxRow)
    (hmem : r ∈ db.mailboxes) (hchat : r.chat_id = chat)
    (haddr : r.address = addr)
    (huniq : ∀ x ∈ db.mailboxes, x.chat_id = chat → x.address = addr → x = r) :
    (db_save_mailbox db chat addr pw tok now lbl).1 = r.id ∧
    (db_save_mailbox db chat addr pw tok now lbl).2.mailboxes =
      db.mailboxes := by
  rw [db_save_mailbox_dup db chat addr pw tok now lbl r hmem hchat haddr huniq]
  exact ⟨rfl, rfl⟩

theorem C6_address_unique_per_tenant_witness :
    (db_save_mailbox dbW 10 "a@x" "otherpw" "othertok" 999 (some "l")).1 =
      mbA.id ∧
    (db_save_mailbox dbW 10 "a@x" "otherpw" "othertok" 999 (some "l")).2.mailboxes =
      dbW.mailboxes :=
  C6_address_unique_per_tenant dbW 10 "a@x" "otherpw" "othertok" 999
    (some "l") mbA (by decide) rfl rfl (by decide)

/-- C10: a duplicate save is a complete no-op on the store: the database is
returned unchanged, so the stored row keeps its original password, token,
created_at and label and the newly supplied values are discarded; only the
existing row's id is returned. -/
theorem C10_duplicate_save_preserves_row (db : DB) (chat : Int)
    (addr pw tok : String) (now : Int) (lbl : Option String) (r : MailboxRow)
    (hmem : r ∈ db.mailboxes) (hchat : r.chat_id = chat)
    (haddr : r.address = addr)
    (huniq : ∀ x ∈ db.mailboxes, x.chat_id = chat → x.address = addr → x = r) :
    (db_save_mailbox db chat addr pw tok now lbl).2 = db ∧
    (db_save_mailbox db chat addr pw tok now lbl).1 = r.id ∧
    r ∈ (db_save_mailbox db chat addr pw tok now lbl).2.mailboxes := by
  rw [db_save_mailbox_dup db chat addr pw tok now lbl r hmem hchat haddr huniq]
  exact ⟨rfl, rfl, hmem⟩

theorem C10_duplicate_save_preserves_row_witness :
    (db_save_mailbox dbW 10 "a@x" "otherpw" "othertok" 999 (some "l")).2 =
      dbW ∧
    (db_save_mailbox dbW 10 "a@x" "otherpw" "othertok" 999 (some "l")).1 =
      mbA.id ∧
    mbA ∈ (db_save_mailbox dbW 10 "a@x" "otherpw" "othertok" 999
      (some "l")).2.mailboxes :=
  C10_duplicate_save_preserves_row dbW 10 "a@x" "otherpw" "othertok" 999
    (some "l") mbA (by decide) rfl rfl (by decide)

/-- C9: account creation retries exactly once with the freshly generated
second local-part: if the provider rejects the first candidate address and
accepts the second, creation succeeds with the second address and the
new-mailbox handler persists exactly one mailbox row carrying that fresh
address; if both attempts are rejected, the failure is surfaced. -/
theorem C9_create_retries_once (p : AcctProvider) (domain l1 l2 pw : String) :
    (∀ tokv : String,
       p.accountOk (l1 ++ "@" ++ domain) = false →
       p.accountOk (l2 ++ "@" ++ domain) = true →
       p.tokenOf (l2 ++ "@" ++ domain) = .ok tokv →
       mailtm_create_account_and_token p domain l1 l2 pw =
         .ok (l2 ++ "@" ++ domain, pw, tokv) ∧
       ∀ (db : DB) (chat : Int) (now : Int),
         (∀ r ∈ db.mailboxes,
            ¬(r.chat_id = chat ∧ r.address = l2 ++ "@" ++ domain)) →
         ∃ db2, handle_new p db chat domain l1 l2 pw now =
             .ok (db2, l2 ++ "@" ++ domain) ∧
           db2.mailboxes = db.mailboxes ++
             [⟨db.nextId, chat, l2 ++ "@" ++ domain, pw, tokv, now, none⟩]) ∧
    (p.accountOk (l1 ++ "@" ++ domain) = false →
     p.accountOk (l2 ++ "@" ++ domain) = false →
     mailtm_create_account_and_token p domain l1 l2 pw = .error ()) := by
  constructor
  · intro tokv h1 h2 h3
    have hcreate : mailtm_create_account_and_token p domain l1 l2 pw =
        .ok (l2 ++ "@" ++ domain, pw, tokv) := by
      unfold mailtm_create_account_and_token
      simp only [h1, Bool.false_eq_true, ite_false, h2, ite_true, h3]
    refine ⟨hcreate, ?_⟩
    intro db chat now hfresh
    refine ⟨db_set_active_mailbox
      (db_save_mailbox db chat (l2 ++ "@" ++ domain) pw tokv now none).2 chat
      (db_save_mailbox db chat (l2 ++ "@" ++ domain) pw tokv now none).1 now,
      ?_, ?_⟩
    · unfold handle_new
      rw [hcreate]
    · rw [set_active_mailboxes_eq,
        db_save_mailbox_fresh db chat (l2 ++ "@" ++ domain) pw tokv now none
          hfresh]
  · intro h1 h2
    unfold mailtm_create_account_and_token
    simp only [h1, Bool.false_eq_true, ite_false, h2]

def acctRetry : AcctProvider := ⟨fun a => a == "l2@d", fun _ => .ok "T"⟩

def acctFail : AcctProvider := ⟨fun _ => false, fun _ => .ok "T"⟩

theorem C9_create_retries_once_witness :
    mailtm_create_account_and_token acctRetry "d" "l1" "l2" "pw" =
      .ok ("l2" ++ "@" ++ "d", "pw", "T") ∧
    (∃ db2, handle_new acctRetry dbW 10 "d" "l1" "l2" "pw" 7 =
        .ok (db2, "l2" ++ "@" ++ "d") ∧
      db2.mailboxes = dbW.mailboxes ++
        [⟨dbW.nextId, 10, "l2" ++ "@" ++ "d", "pw", "T", 7, none⟩]) ∧
    mailtm_create_account_and_token acctFail "d" "l1" "l2" "pw" =
      .error () := by
  have h := (C9_create_retries_once acctRetry "d" "l1" "l2" "pw").1 "T"
    (by decide) (by decide) rfl
  exact ⟨h.1, h.2 dbW 10 7 (by decide),
    (C9_create_retries_once acctFail "d" "l1" "l2" "pw").2 rfl rfl⟩

/-! ### Lemmas about the message formatter -/

/-- The local `text` after `strip()` in `format_full_message`. -/
def strippedText (msg : FullMsg) : String := pyStrip (msg.text.getD "")

/-- The local `text` after the HTML-only substitution. -/
def effectiveText (msg : FullMsg) : String :=
  if strippedText msg = "" ∧ msg.html ≠ [] then
    "(This email is HTML-only. Text version not available.)"
  else strippedText msg

/-- The local `text` after truncation: the body finally rendered (before the
`(empty body)` fallback). -/
def emailBody (msg : FullMsg) : String :=
  if (effectiveText msg).toList.length > 3500 then
    ((effectiveText msg).toList.take 3500).asString ++ "\n…(truncated)"
  else effectiveText msg

theorem format_full_message_eq (msg : FullMsg) :
    format_full_message msg =
      "📩 <b>New Email</b>\n<b>From:</b> " ++ msg.from_addr.getD "unknown" ++
      "\n<b>To:</b> " ++ pyOr (String.intercalate ", " msg.to_addrs) "(unknown)" ++
      "\n<b>Subject:</b> " ++ pyOr (msg.subject.getD "") "(no subject)" ++
      "\n<b>Date:</b> " ++ msg.createdAt.getD "" ++
      "\n\n" ++ pyOr (emailBody msg) "(empty body)" := rfl

theorem effectiveText_of_long (msg : FullMsg)
    (h : 3500 < (strippedText msg).toList.length) :
    effectiveText msg = strippedText msg := by
  unfold effectiveText
  rw [if_neg]
  rintro ⟨h1, _⟩
  rw [h1] at h
  exact absurd h (by decide)

theorem emailBody_of_long (msg : FullMsg)
    (h : 3500 < (strippedText msg).toList.length) :
    emailBody msg =
      ((strippedText msg).toList.take 3500).asString ++ "\n…(truncated)" := by
  unfold emailBody
  rw [effectiveText_of_long msg h, if_pos h]

theorem emailBody_of_html_only (msg : FullMsg)
    (h1 : strippedText msg = "") (h2 : msg.html ≠ []) :
    emailBody msg =
      "(This email is HTML-only. Text version not available.)" := by
  have he : effectiveText msg =
      "(This email is HTML-only. Text version not available.)" := by
    unfold effectiveText
    rw [if_pos ⟨h1, h2⟩]
  unfold emailBody
  rw [he, if_neg (by decide)]

theorem emailBody_html_ext (msg : FullMsg) (h1 h2 : List String)
    (hiff : h1 = [] ↔ h2 = []) :
    emailBody { msg with html := h1 } = emailBody { msg with html := h2 } := by
  have he : effectiveText { msg with html := h1 } =
      effectiveText { msg with html := h2 } := by
    unfold effectiveText
    by_cases hh : h1 = []
    · rw [hh, hiff.1 hh]
    · have hh2 : h2 ≠ [] := fun k => hh (hiff.2 k)
      by_cases ht : strippedText { msg with html := h1 } = ""
      · have ht2 : strippedText { msg with html := h2 } = "" := ht
        rw [if_pos ⟨ht, hh⟩, if_pos ⟨ht2, hh2⟩]
      · have ht2 : ¬strippedText { msg with html := h2 } = "" := ht
        rw [if_neg (by rintro ⟨k, _⟩; exact ht k),
          if_neg (by rintro ⟨k, _⟩; exact ht2 k)]
        rfl
  unfold emailBody
  rw [he]

/-- C8: the formatted display string carries the sender (default
`"unknown"`), the subject — verbatim when nonempty, the `"(no subject)"`
placeholder when empty — and the date; a stripped body longer than 3500
characters is rendered as its first 3500 characters with the
`"\n…(truncated)"` marker appended, while a nonempty body within the limit
appears verbatim; a message with no text body but a nonempty HTML body
renders the fixed HTML-only placeholder, and the output never depends on the
HTML contents themselves — only on whether any HTML is present. -/
theorem C8_format_full_message_spec :
    (∀ msg : FullMsg, ∃ a b : String, format_full_message msg =
       a ++ (msg.from_addr.getD "unknown" ++ b)) ∧
    (∀ msg : FullMsg, msg.subject.getD "" = "" → ∃ a b : String,
       format_full_message msg = a ++ ("(no subject)" ++ b)) ∧
    (∀ msg : FullMsg, msg.subject.getD "" ≠ "" → ∃ a b : String,
       format_full_message msg = a ++ (msg.subject.getD "" ++ b)) ∧
    (∀ msg : FullMsg, ∃ a b : String, format_full_message msg =
       a ++ (msg.createdAt.getD "" ++ b)) ∧
    (∀ msg : FullMsg, 3500 < (pyStrip (msg.text.getD "")).toList.length →
       ∃ a : String, format_full_message msg =
         a ++ (((pyStrip (msg.text.getD "")).toList.take 3500).asString ++
           "\n…(truncated)")) ∧
    (∀ msg : FullMsg, pyStrip (msg.text.getD "") ≠ "" →
       (pyStrip (msg.text.getD "")).toList.length ≤ 3500 →
       ∃ a : String, format_full_message msg =
         a ++ pyStrip (msg.text.getD "")) ∧
    (∀ msg : FullMsg, pyStrip (msg.text.getD "") = "" → msg.html ≠ [] →
       ∃ a : String, format_full_message msg =
         a ++ "(This email is HTML-only. Text version not available.)") ∧
    (∀ (msg : FullMsg) (h1 h2 : List String), (h1 = [] ↔ h2 = []) →
       format_full_message { msg with html := h1 } =
         format_full_message { msg with html := h2 }) := by
  refine ⟨?_, ?_, ?_, ?_, ?_, ?_, ?_, ?_⟩
  · intro msg
    refine ⟨"📩 <b>New Email</b>\n<b>From:</b> ",
      "\n<b>To:</b> " ++ pyOr (String.intercalate ", " msg.to_addrs) "(unknown)" ++
      "\n<b>Subject:</b> " ++ pyOr (msg.subject.getD "") "(no subject)" ++
      "\n<b>Date:</b> " ++ msg.createdAt.getD "" ++
      "\n\n" ++ pyOr (emailBody msg) "(empty body)", ?_⟩
    rw [format_full_message_eq]
    simp [String.append_assoc]
  · intro msg hsub
    have hps : pyOr (msg.subject.getD "") "(no subject)" = "(no subject)" := by
      unfold pyOr
      rw [if_pos hsub]
    refine ⟨"📩 <b>New Email</b>\n<b>From:</b> " ++ msg.from_addr.getD "unknown" ++
      "\n<b>To:</b> " ++ pyOr (String.intercalate ", " msg.to_addrs) "(unknown)" ++
      "\n<b>Subject:</b> ",
      "\n<b>Date:</b> " ++ msg.createdAt.getD "" ++
      "\n\n" ++ pyOr (emailBody msg) "(empty body)", ?_⟩
    rw [format_full_message_eq, hps]
    simp only [← String.append_assoc]
  · intro msg hsub
    have hps : pyOr (msg.subject.getD "") "(no subject)" =
        msg.subject.getD "" := by
      unfold pyOr
      rw [if_neg hsub]
    refine ⟨"📩 <b>New Email</b>\n<b>From:</b> " ++ msg.from_addr.getD "unknown" ++
      "\n<b>To:</b> " ++ pyOr (String.intercalate ", " msg.to_addrs) "(unknown)" ++
      "\n<b>Subject:</b> ",
      "\n<b>Date:</b> " ++ msg.createdAt.getD "" ++
      "\n\n" ++ pyOr (emailBody msg) "(empty body)", ?_⟩
    rw [format_full_message_eq, hps]
    simp only [← String.append_assoc]
  · intro msg
    refine ⟨"📩 <b>New Email</b>\n<b>From:</b> " ++ msg.from_addr.getD "unknown" ++
      "\n<b>To:</b> " ++ pyOr (String.intercalate ", " msg.to_addrs) "(unknown)" ++
      "\n<b>Subject:</b> " ++ pyOr (msg.subject.getD "") "(no subject)" ++
      "\n<b>Date:</b> ",
      "\n\n" ++ pyOr (emailBody msg) "(empty body)", ?_⟩
    rw [format_full_message_eq]
    simp [String.append_assoc]
  · intro msg h
    have hb := emailBody_of_long msg h
    have hne : emailBody msg ≠ "" := by
      rw [hb]
      intro he
      have hlen := congrArg String.length he
      rw [String.length_append] at hlen
      have hm : ("\n…(truncated)" : String).length = 13 := by decide
      rw [hm] at hlen
      simp at hlen
    have hpy : pyOr (emailBody msg) "(empty body)" =
        ((strippedText msg).toList.take 3500).asString ++ "\n…(truncated)" := by
      unfold pyOr
      rw [if_neg hne, hb]
    refine ⟨"📩 <b>New Email</b>\n<b>From:</b> " ++ msg.from_addr.getD "unknown" ++
      "\n<b>To:</b> " ++ pyOr (String.intercalate ", " msg.to_addrs) "(unknown)" ++
      "\n<b>Subject:</b> " ++ pyOr (msg.subject.getD "") "(no subject)" ++
      "\n<b>Date:</b> " ++ msg.createdAt.getD "" ++
      "\n\n", ?_⟩
    rw [format_full_message_eq, hpy]
    rfl
  · intro msg ht hlen
    have heff : effectiveText msg = strippedText msg := by
      unfold effectiveText
      rw [if_neg]
      rintro ⟨h1, _⟩
      exact ht h1
    have hlen' : (strippedText msg).toList.length ≤ 3500 := hlen
    have hb : emailBody msg = strippedText msg := by
      unfold emailBody
      rw [heff, if_neg (Nat.not_lt.mpr hlen')]
    have hpy : pyOr (emailBody msg) "(empty body)" = strippedText msg := by
      unfold pyOr
      rw [if_neg (fun he => ht (hb.symm.trans he)), hb]
    refine ⟨"📩 <b>New Email</b>\n<b>From:</b> " ++ msg.from_addr.getD "unknown" ++
      "\n<b>To:</b> " ++ pyOr (String.intercalate ", " msg.to_addrs) "(unknown)" ++
      "\n<b>Subject:</b> " ++ pyOr (msg.subject.getD "") "(no subject)" ++
      "\n<b>Date:</b> " ++ msg.createdAt.getD "" ++
      "\n\n", ?_⟩
    rw [format_full_message_eq, hpy]
    rfl
  · intro msg ht hh
    have hb := emailBody_of_html_only msg ht hh
    have hne : emailBody msg ≠ "" := by
      rw [hb]
      decide
    have hpy : pyOr (emailBody msg) "(empty body)" =
        "(This email is HTML-only. Text version not available.)" := by
      unfold pyOr
      rw [if_neg hne, hb]
    refine ⟨"📩 <b>New Email</b>\n<b>From:</b> " ++ msg.from_addr.getD "unknown" ++
      "\n<b>To:</b> " ++ pyOr (String.intercalate ", " msg.to_addrs) "(unknown)" ++
      "\n<b>Subject:</b> " ++ pyOr (msg.subject.getD "") "(no subject)" ++
      "\n<b>Date:</b> " ++ msg.createdAt.getD "" ++
      "\n\n", ?_⟩
    rw [format_full_message_eq, hpy]
  · intro msg h1 h2 hiff
    rw [format_full_message_eq, format_full_message_eq,
      emailBody_html_ext msg h1 h2 hiff]

def msgNoSubj : FullMsg := ⟨some "s@y", none, ["t@z"], some "2024", some "hi", []⟩

def msgLong : FullMsg :=
  ⟨some "s@y", some "S", [], some "2024",
   some (String.mk (List.replicate 3501 'a')), []⟩

def msgHtmlOnly : FullMsg := ⟨none, none, [], none, some "  ", ["<p>hi</p>"]⟩

def msgPlain : FullMsg :=
  ⟨some "s@y", some "Hello", ["t@z"], some "2024", some " hi ", []⟩

theorem dropWhile_replicate_a :
    (List.replicate 3501 'a').dropWhile isPySpace = List.replicate 3501 'a' := by
  have h1 : List.replicate 3501 'a' = 'a' :: List.replicate 3500 'a' := rfl
  have ha : isPySpace 'a' = false := rfl
  rw [h1, List.dropWhile_cons, ha, if_neg Bool.false_ne_true]

theorem C8_format_full_message_spec_witness :
    (∃ a b : String, format_full_message msgNoSubj =
      a ++ ("(no subject)" ++ b)) ∧
    (∃ a b : String, format_full_message msgPlain =
      a ++ ("Hello" ++ b)) ∧
    (∃ a : String, format_full_message msgLong =
      a ++ (((pyStrip (msgLong.text.getD "")).toList.take 3500).asString ++
        "\n…(truncated)")) ∧
    (∃ a : String, format_full_message msgPlain = a ++ "hi") ∧
    (∃ a : String, format_full_message msgHtmlOnly =
      a ++ "(This email is HTML-only. Text version not available.)") ∧
    format_full_message ⟨none, none, [], none, some "  ", ["<p>"]⟩ =
      format_full_message ⟨none, none, [], none, some "  ", ["<q>", "z"]⟩ := by
  have hs : msgLong.text.getD "" = String.mk (List.replicate 3501 'a') := rfl
  have hpy : ∀ s : String, pyStrip s =
      (((s.toList.dropWhile isPySpace).reverse.dropWhile
        isPySpace).reverse).asString := fun _ => rfl
  have hasl : ∀ l : List Char, (List.asString l).toList = l := fun _ => rfl
  have hmkl : ∀ l : List Char, (String.mk l).toList = l := fun _ => rfl
  have e1 : (pyStrip (msgLong.text.getD "")).toList =
      List.replicate 3501 'a' := by
    rw [hs, hpy, hasl, hmkl, dropWhile_replicate_a, List.reverse_replicate,
      dropWhile_replicate_a, List.reverse_replicate]
  have hkey : 3500 < (pyStrip (msgLong.text.getD "")).toList.length := by
    rw [e1, List.length_replicate]
    decide
  exact ⟨C8_format_full_message_spec.2.1 msgNoSubj rfl,
    C8_format_full_message_spec.2.2.1 msgPlain (by decide),
    C8_format_full_message_spec.2.2.2.2.1 msgLong hkey,
    C8_format_full_message_spec.2.2.2.2.2.1 msgPlain (by decide) (by decide),
    C8_format_full_message_spec.2.2.2.2.2.2.1 msgHtmlOnly (by decide) (by decide),
    C8_format_full_message_spec.2.2.2.2.2.2.2 ⟨none, none, [], none, some "  ", []⟩
      ["<p>"] ["<q>", "z"] (by decide)⟩

end Bot
